import Mathlib

/-
Verification of the Ade-Scripts power-log analysis pipeline.

This file gives a shallow embedding of the log-scanning, statistics and CLI
logic of the repository's power_metrics_aggregator scripts (Experiments 1-3),
of the idle-value reverse reader, of the timestamp-range loaders and of the
CLI entry guards, and proves or refutes the frozen claims about them.

Modelling conventions:
* A physical text line of a power log is represented by the record of the
  outcomes of the tests the Python code applies to it (separator test, brace
  tests, regex captures).  This is the abstraction level at which the parsing
  loops operate; the regular-expression layer itself is represented by the
  captured values.
* Timestamps are parsed by an executable model of
  datetime.strptime(s, "%Y-%m-%dT%H:%M:%SZ") that maps a well-formed
  timestamp string to a Nat that is ordered chronologically.
* Python floats are modelled by rationals, with math.sqrt / np.sqrt /
  statistics.stdev's square root abstracted as an explicit function
  parameter, so every definition stays executable.
* Files are modelled as the list of their (classified) lines; a possibly
  missing file as an Option of that list; the directory tree seen by the CLI
  entry points as an abstract record of the queries the scripts make of it.
-/

set_option autoImplicit false

namespace Ade

/-! ## Timestamp parsing

Model of datetime.strptime(value, "%Y-%m-%dT%H:%M:%SZ") as used by
Experiment 1 (power_metrics_aggregator.py line 86), and of
datetime.fromisoformat(value.replace("Z", "+00:00")) as used by
Experiments 2 and 3 on the canonical timestamps these logs hold.
A valid string is mapped to a Nat which is strictly increasing in
chronological order; an invalid one to none (Python: ValueError). -/

def digitVal (c : Char) : Option Nat :=
  if c.isDigit then some (c.toNat - 48) else none

def num2 (a b : Char) : Option Nat :=
  match digitVal a, digitVal b with
  | some x, some y => some (10 * x + y)
  | _, _ => none

def num4 (a b c d : Char) : Option Nat :=
  match digitVal a, digitVal b, digitVal c, digitVal d with
  | some x, some y, some z, some w => some (1000 * x + 100 * y + 10 * z + w)
  | _, _, _, _ => none

def isLeapYear (y : Nat) : Bool :=
  y % 4 == 0 && (!(y % 100 == 0) || y % 400 == 0)

def daysInMonth (y m : Nat) : Nat :=
  if m == 1 || m == 3 || m == 5 || m == 7 || m == 8 || m == 10 || m == 12 then 31
  else if m == 4 || m == 6 || m == 9 || m == 11 then 30
  else if isLeapYear y then 29 else 28

def parseTime (str : String) : Option Nat :=
  match str.data with
  | [y1, y2, y3, y4, c1, mo1, mo2, c2, d1, d2, c3, h1, h2, c4, mi1, mi2, c5, se1, se2, c6] =>
    if c1 = '-' ∧ c2 = '-' ∧ c3 = 'T' ∧ c4 = ':' ∧ c5 = ':' ∧ c6 = 'Z' then
      match num4 y1 y2 y3 y4, num2 mo1 mo2, num2 d1 d2, num2 h1 h2, num2 mi1 mi2, num2 se1 se2 with
      | some y, some mo, some d, some h, some mi, some se =>
        if 1 ≤ mo ∧ mo ≤ 12 ∧ 1 ≤ d ∧ d ≤ daysInMonth y mo ∧ h ≤ 23 ∧ mi ≤ 59 ∧ se ≤ 59 then
          some (se + 60 * (mi + 60 * (h + 24 * ((d - 1) + 31 * ((mo - 1) + 12 * y)))))
        else none
      | _, _, _, _, _, _ => none
    else none
  | _ => none

/-! ## Power-log lines and entry state

A `PLine` records, for one physical line of an ilo power file, the outcome of
every test the scanning loops of the three aggregator scripts apply to a
line:

* `stripSep`    : line.strip() equals the 84-dash separator (Experiment 1, line 71)
* `startSep`    : line.startswith(the 84-dash separator) (Experiments 2/3)
* `hasOpen`     : the open-brace character occurs in the line (Experiment 1, line 76)
* `hasClose`    : the close-brace character occurs in the line (Experiment 1, line 82)
* `stripOpen`   : line.strip() is a lone open brace (Experiments 2/3)
* `stripClose`  : line.strip() is a lone close brace or close brace followed by
                  a comma (Experiments 2/3 and the idle readers)
* `hasPD`       : the literal PowerDetail array marker occurs in the line
                  (Experiments 2/3)
* `timeM`, `cpuM`, `dimmM`, `avgM` : the captured group of the Time /
  CpuWatts / DimmWatts / Average regex search on the line, if it matches.
-/

structure PLine where
  stripSep : Bool
  startSep : Bool
  hasOpen : Bool
  hasClose : Bool
  stripOpen : Bool
  stripClose : Bool
  hasPD : Bool
  timeM : Option String
  cpuM : Option Nat
  dimmM : Option Nat
  avgM : Option Nat
  deriving DecidableEq

/-- State of the Python dict entry_data while scanning one entry. -/
structure Entry where
  time : Option String
  cpu : Option Nat
  dimm : Option Nat
  avg : Option Nat
  deriving DecidableEq

def Entry.empty : Entry := ⟨none, none, none, none⟩

/-- Python dict assignment on a regex hit: a fresh capture overwrites. -/
def setIf {α : Type} (new old : Option α) : Option α :=
  match new with
  | some v => some v
  | none => old

/-- One field-extraction step of the scanning loops: every regex that matches
    updates its key of entry_data. -/
def Entry.update (e : Entry) (l : PLine) : Entry :=
  ⟨setIf l.timeM e.time, setIf l.cpuM e.cpu, setIf l.dimmM e.dimm, setIf l.avgM e.avg⟩

/-- Field extraction of the idle readers, which only search for the three
    watt regexes (no Time regex). -/
def Entry.updateWatts (e : Entry) (l : PLine) : Entry :=
  ⟨e.time, setIf l.cpuM e.cpu, setIf l.dimmM e.dimm, setIf l.avgM e.avg⟩

/-! ## The Experiment 2/3 section-windowed extractor

Model of load_power_data_in_time_range (Experiment 2
power_metrics_aggregator.py lines 131-194).  The Experiment 3 version
(lines 25-77) is the same scan with the pair components swapped and without
the ValueError guard around timestamp parsing.  The Python code keeps, per
metric key, a list of sections whose last element is the section currently
being filled; we carry that last element (`cur`) separately and return the
closed-off sections in order, which yields exactly the final value of the
Python list.  The Python statement that replaces an empty current section by
a fresh empty list before appending is a no-op and is not represented.
A section holds, per metric key, the appended (value, timestamp) pairs. -/

structure Sec where
  cpu : List (Nat × String)
  dimm : List (Nat × String)
  avg : List (Nat × String)
  deriving DecidableEq

def Sec.empty : Sec := ⟨[], [], []⟩

/-- Close-marker handling of load_power_data_in_time_range: if a Time was
    captured and parses and lies inside the window, append each captured watt
    value (tagged with the timestamp) to the current section.  For a
    timestamp accepted by `parseTime` the strftime round-trip of the
    Experiment 2 code reproduces the original string, so the original string
    is stored. -/
def flushE (s en : Nat) (e : Entry) (cur : Sec) : Sec :=
  match e.time with
  | none => cur
  | some ts =>
    match parseTime ts with
    | none => cur
    | some t =>
      if s ≤ t ∧ t ≤ en then
        ⟨cur.cpu ++ (e.cpu.map (fun v => (v, ts))).toList,
         cur.dimm ++ (e.dimm.map (fun v => (v, ts))).toList,
         cur.avg ++ (e.avg.map (fun v => (v, ts))).toList⟩
      else cur

def loadGo (s en : Nat) : List PLine → Bool → Entry → Sec → List Sec
  | [], _, _, cur => [cur]
  | l :: ls, inPD, e, cur =>
    if l.hasPD then loadGo s en ls true e cur
    else if l.startSep ∧ inPD then cur :: loadGo s en ls inPD e Sec.empty
    else if inPD then
      if l.stripOpen then loadGo s en ls inPD Entry.empty cur
      else if l.stripClose then loadGo s en ls inPD Entry.empty (flushE s en e cur)
      else loadGo s en ls inPD (e.update l) cur
    else loadGo s en ls inPD e cur

def load_power_data_in_time_range (s en : Nat) (lines : List PLine) : List Sec :=
  loadGo s en lines false Entry.empty Sec.empty

/-! ## Spec-side view of the Experiment 2/3 extractor

`sectionEntriesSpec` is the same scan with the time-window filter removed: it
collects, per section, every entry flushed at a close marker, in file order.
`windowSpec` then expresses the spec's words: keep, in order, exactly the
in-window contributions of those entries.  The claims compare the extractor
against the composition of the two. -/

def entriesGo : List PLine → Bool → Entry → List Entry → List (List Entry)
  | [], _, _, cur => [cur]
  | l :: ls, inPD, e, cur =>
    if l.hasPD then entriesGo ls true e cur
    else if l.startSep ∧ inPD then cur :: entriesGo ls inPD e []
    else if inPD then
      if l.stripOpen then entriesGo ls inPD Entry.empty cur
      else if l.stripClose then entriesGo ls inPD Entry.empty (cur ++ [e])
      else entriesGo ls inPD (e.update l) cur
    else entriesGo ls inPD e cur

def sectionEntriesSpec (lines : List PLine) : List (List Entry) :=
  entriesGo lines false Entry.empty []

/-- The in-window contribution of one flushed entry to one metric key:
    its value tagged with its timestamp when the timestamp is present, parses
    and lies inside the inclusive window, nothing otherwise. -/
def keepVal (s en : Nat) (get : Entry → Option Nat) (e : Entry) : Option (Nat × String) :=
  match e.time with
  | none => none
  | some ts =>
    match parseTime ts with
    | none => none
    | some t =>
      if s ≤ t ∧ t ≤ en then (get e).map (fun v => (v, ts)) else none

/-- Spec-side windowing of one section: the order-preserving in-window
    subsequence of the section's flushed entries, per metric key. -/
def windowSpec (s en : Nat) (es : List Entry) : Sec :=
  ⟨es.filterMap (keepVal s en (fun e => e.cpu)),
   es.filterMap (keepVal s en (fun e => e.dimm)),
   es.filterMap (keepVal s en (fun e => e.avg))⟩

/-! Positional splitting used by claim C2: a power-log body splits into
segments at its separator lines; an entry belongs to segment i exactly when i
separator lines precede it in the file. -/

def splitOnSep : List PLine → List (List PLine)
  | [] => [[]]
  | l :: ls =>
    if l.startSep then [] :: splitOnSep ls
    else
      match splitOnSep ls with
      | seg :: segs => (l :: seg) :: segs
      | [] => [[l]]

/-- Entries flushed inside one separator-free segment, threading the pending
    entry_data state through it. -/
def entriesSeg : Entry → List PLine → List Entry × Entry
  | e, [] => ([], e)
  | e, l :: ls =>
    if l.stripOpen then entriesSeg Entry.empty ls
    else if l.stripClose then
      match entriesSeg Entry.empty ls with
      | (r, e2) => (e :: r, e2)
    else entriesSeg (e.update l) ls

/-- Entries flushed in each segment, threading the pending entry_data state
    across segment boundaries (separator lines do not reset it). -/
def entriesSections : Entry → List (List PLine) → List (List Entry)
  | _, [] => []
  | e, seg :: segs =>
    match entriesSeg e seg with
    | (fl, e2) => fl :: entriesSections e2 segs

/-- Prepend already-collected entries onto the first of a list of sections. -/
def consInto (cur : List Entry) : List (List Entry) → List (List Entry)
  | [] => [cur]
  | x :: xs => (cur ++ x) :: xs

/-! ## The Experiment 1 section-windowed extractor

Model of extract_section_values (Experiment 1 power_metrics_aggregator.py
lines 38-131).  Differences from the Experiment 2/3 scan, all mirrored here:
there is no PowerDetail gating; the separator test is strip-equality; the
open/close tests are containment tests; an open line resets entry_data and
sets inside_entry; a close line only counts when inside_entry and does not
reset entry_data; on flush the Time string is always appended to the
section's Time list and each watt key only when captured; the trailing
section is kept only when one of its four lists is non-empty; finally the
section list is padded with empty sections to TOTAL_SECTIONS and truncated
to TOTAL_SECTIONS. -/

structure Sec1 where
  time : List String
  cpu : List Nat
  dimm : List Nat
  avg : List Nat
  deriving DecidableEq

def Sec1.empty : Sec1 := ⟨[], [], [], []⟩

def flush1 (s en : Nat) (e : Entry) (cur : Sec1) : Sec1 :=
  match e.time with
  | none => cur
  | some ts =>
    match parseTime ts with
    | none => cur
    | some t =>
      if s ≤ t ∧ t ≤ en then
        ⟨cur.time ++ [ts], cur.cpu ++ e.cpu.toList,
         cur.dimm ++ e.dimm.toList, cur.avg ++ e.avg.toList⟩
      else cur

def go1 (s en : Nat) : List PLine → Bool → Entry → Sec1 → List Sec1
  | [], _, _, cur => if cur = Sec1.empty then [] else [cur]
  | l :: ls, inside, e, cur =>
    if l.stripSep then cur :: go1 s en ls inside e Sec1.empty
    else if l.hasOpen then go1 s en ls true Entry.empty cur
    else if l.hasClose ∧ inside then go1 s en ls false e (flush1 s en e cur)
    else if inside then go1 s en ls inside (e.update l) cur
    else go1 s en ls inside e cur

/-- The raw section list built by the parse loop of extract_section_values,
    before the fixed-count adjustment. -/
def extract_sections_raw (s en : Nat) (lines : List PLine) : List Sec1 :=
  go1 s en lines false Entry.empty Sec1.empty

def TOTAL_SECTIONS : Nat := 8

/-- The fixed-count adjustment at the end of extract_section_values: pad with
    empty sections while below TOTAL_SECTIONS, truncate when above. -/
def padTruncate (secs : List Sec1) : List Sec1 :=
  if TOTAL_SECTIONS < secs.length then secs.take TOTAL_SECTIONS
  else secs ++ List.replicate (TOTAL_SECTIONS - secs.length) Sec1.empty

def extract_section_values (s en : Nat) (lines : List PLine) : List Sec1 :=
  padTruncate (extract_sections_raw s en lines)

/-! Spec-side view of the Experiment 1 scan, mirroring `sectionEntriesSpec` /
`windowSpec` for the Experiment 1 flush shape. -/

def entriesGo1 : List PLine → Bool → Entry → List Entry → List (List Entry)
  | [], _, _, cur => [cur]
  | l :: ls, inside, e, cur =>
    if l.stripSep then cur :: entriesGo1 ls inside e []
    else if l.hasOpen then entriesGo1 ls true Entry.empty cur
    else if l.hasClose ∧ inside then entriesGo1 ls false e (cur ++ [e])
    else if inside then entriesGo1 ls inside (e.update l) cur
    else entriesGo1 ls inside e cur

def sectionEntriesSpec1 (lines : List PLine) : List (List Entry) :=
  entriesGo1 lines false Entry.empty []

def keepTs (s en : Nat) (e : Entry) : Option String :=
  match e.time with
  | none => none
  | some ts =>
    match parseTime ts with
    | none => none
    | some t => if s ≤ t ∧ t ≤ en then some ts else none

def keepW (s en : Nat) (get : Entry → Option Nat) (e : Entry) : Option Nat :=
  match e.time with
  | none => none
  | some ts =>
    match parseTime ts with
    | none => none
    | some t => if s ≤ t ∧ t ≤ en then get e else none

def windowSpec1 (s en : Nat) (es : List Entry) : Sec1 :=
  ⟨es.filterMap (keepTs s en),
   es.filterMap (keepW s en (fun e => e.cpu)),
   es.filterMap (keepW s en (fun e => e.dimm)),
   es.filterMap (keepW s en (fun e => e.avg))⟩

/-- Drop the final section exactly when it is empty, matching the
    conditional push of the trailing section at the end of the parse loop. -/
def dropLastIfEmpty : List Sec1 → List Sec1
  | [] => []
  | [x] => if x = Sec1.empty then [] else [x]
  | x :: y :: xs => x :: dropLastIfEmpty (y :: xs)

/-! ## The idle-variant reverse reader

Model of get_last_X_idle_values (Experiment 1 power_metrics_aggregator.py
lines 133-193, duplicated at lines 339-399; Experiment 3 lines 79-125 is the
same loop).  The file's lines are iterated in reverse; a close-marker line
flushes the watt fields collected since the previous close marker when all
three are present, prepending them so the result is in file order, and the
scan stops once `number` complete entries have been collected. -/

structure IdleVals where
  cpu : List Nat
  dimm : List Nat
  avg : List Nat
  deriving DecidableEq

def idleGo (number : Nat) : List PLine → Nat → Entry → IdleVals → IdleVals
  | [], _, _, acc => acc
  | l :: ls, count, e, acc =>
    if l.stripClose then
      match e.cpu, e.dimm, e.avg with
      | some c, some d, some a =>
        if number ≤ count + 1 then ⟨c :: acc.cpu, d :: acc.dimm, a :: acc.avg⟩
        else idleGo number ls (count + 1) Entry.empty ⟨c :: acc.cpu, d :: acc.dimm, a :: acc.avg⟩
      | _, _, _ => idleGo number ls count Entry.empty acc
    else idleGo number ls count (e.updateWatts l) acc

def get_last_X_idle_values (number : Nat) (lines : List PLine) : IdleVals :=
  idleGo number lines.reverse 0 Entry.empty ⟨[], [], []⟩

/-! ## Statistics aggregators

Python floats are modelled by rationals; the square root of math.sqrt /
np.sqrt / statistics.stdev is abstracted as a function parameter `sqrtF`, so
all statements hold for the exact real computation. -/

/-- Model of calc_stats (Experiment 1 power_metrics_aggregator.py lines
    584-595): (Average, StdDev, StdError), each None when undefined. -/
def calc_stats (sqrtF : ℚ → ℚ) (data : List ℚ) : Option ℚ × Option ℚ × Option ℚ :=
  if data = [] then (none, none, none)
  else
    let avg : ℚ := data.sum / (data.length : ℚ)
    if 1 < data.length then
      let variance : ℚ := (data.map (fun x => (x - avg) ^ 2)).sum / ((data.length : ℚ) - 1)
      (some avg, some (sqrtF variance), some (sqrtF variance / sqrtF (data.length : ℚ)))
    else (some avg, none, none)

/-- Bessel-corrected sample standard deviation, as computed by
    np.std(values, ddof=1) and by statistics.stdev. -/
def sampleStd (sqrtF : ℚ → ℚ) (values : List ℚ) : ℚ :=
  sqrtF ((values.map (fun x => (x - values.sum / (values.length : ℚ)) ^ 2)).sum
    / ((values.length : ℚ) - 1))

/-- Model of calculate_sample_std (Experiment 2 power_metrics_aggregator.py
    lines 46-48): np.std(values, ddof=1) when more than one value, else None. -/
def calculate_sample_std (sqrtF : ℚ → ℚ) (values : List ℚ) : Option ℚ :=
  if 1 < values.length then some (sampleStd sqrtF values) else none

/-- Model of calculate_std_error (Experiment 2 power_metrics_aggregator.py
    lines 50-52): calculate_sample_std divided by np.sqrt(len) when more than
    one value, else None. -/
def calculate_std_error (sqrtF : ℚ → ℚ) (values : List ℚ) : Option ℚ :=
  if 1 < values.length then
    (calculate_sample_std sqrtF values).map (fun sd => sd / sqrtF (values.length : ℚ))
  else none

/-- Model of the per-section statistics block of find_folders_and_process
    (Experiment 3 power_metrics_aggregator.py lines 201-210): for a selected
    section's value list, (average, stdev, std error), each branch
    substituting the number 0 when the section is empty or has one value. -/
def exp3_section_stats (sqrtF : ℚ → ℚ) (values : List ℚ) : ℚ × ℚ × ℚ :=
  if values = [] then (0, 0, 0)
  else
    (values.sum / (values.length : ℚ),
     if 1 < values.length then sampleStd sqrtF values else 0,
     if 1 < values.length then sampleStd sqrtF values / sqrtF (values.length : ℚ) else 0)

/-! ## Timestamp-range loaders

A timestamp file is `none` when missing (Python: open raises
FileNotFoundError), otherwise the list of its lines, each line recorded as
the outcome of the regex searches the loader applies to it. -/

/-- One line of ilo_power_timestamps.txt as seen by read_timestamps:
    the two captures of the Start Time / End Time search, and the capture of
    the Total Query Execution Time search, when they match. -/
structure TsLine where
  timeM : Option (String × String)
  execM : Option Nat
  deriving DecidableEq

/-- One line step of read_timestamps: on a time match, start_time is
    assigned first and end_time second, so a Start Time that parses is kept
    even when the End Time then fails to parse; parse failures are logged and
    skipped.  An execution-time match always overwrites. -/
def tsStep (acc : Option Nat × Option Nat × Option Nat) (l : TsLine) :
    Option Nat × Option Nat × Option Nat :=
  let acc1 :=
    match l.timeM with
    | none => acc
    | some (s1, s2) =>
      match parseTime s1 with
      | none => acc
      | some a =>
        match parseTime s2 with
        | none => (some a, acc.2.1, acc.2.2)
        | some b => (some a, some b, acc.2.2)
  match l.execM with
  | none => acc1
  | some n => (acc1.1, acc1.2.1, some n)

/-- Model of read_timestamps (Experiment 1 power_metrics_aggregator.py lines
    195-236): returns (start_time, end_time, total_execution_time), all None
    when the file is missing (the FileNotFoundError is caught and logged). -/
def read_timestamps (file : Option (List TsLine)) : Option Nat × Option Nat × Option Nat :=
  match file with
  | none => (none, none, none)
  | some lines => lines.foldl tsStep (none, none, none)

/-- One line of a query_timestamps file as seen by load_query_timestamps:
    the query id and the two timestamp captures when the Query regex
    matches. -/
structure QLine where
  queryM : Option (Nat × String × String)
  deriving DecidableEq

/-- Python dict insertion: an existing key keeps its position and gets the
    new value, a new key is appended. -/
def upsertQuery (m : List (Nat × Nat × Nat)) (k : Nat) (v : Nat × Nat) :
    List (Nat × Nat × Nat) :=
  if m.any (fun p => p.1 = k) then
    m.map (fun p => if p.1 = k then (k, v.1, v.2) else p)
  else m ++ [(k, v.1, v.2)]

def qStep (acc : List (Nat × Nat × Nat)) (l : QLine) :
    Except String (List (Nat × Nat × Nat)) :=
  match l.queryM with
  | none => Except.ok acc
  | some (q, st, fi) =>
    match parseTime st, parseTime fi with
    | some a, some b => Except.ok (upsertQuery acc q (a, b))
    | _, _ => Except.error ("ValueError")

/-- Model of load_query_timestamps (Experiment 3 power_metrics_aggregator.py
    lines 14-23): the file is opened without any exception handling, so a
    missing file raises FileNotFoundError out of the function, and a
    timestamp that fromisoformat rejects raises ValueError out of the
    function; otherwise the query id to interval mapping is returned in
    insertion order. -/
def load_query_timestamps (file : Option (List QLine)) :
    Except String (List (Nat × Nat × Nat)) :=
  match file with
  | none => Except.error ("FileNotFoundError")
  | some lines => lines.foldlM qStep []

/-! ## CLI entry behaviour

The directory tree is abstracted as the record of the two queries the
scripts make of it: does the base path exist, and which SF* directories does
glob find under it (none when the base path does not exist). -/

structure FS where
  pathExists : String → Bool
  sfDirs : String → List String
  sfDirs_missing : ∀ p, pathExists p = false → sfDirs p = []

/-- Model of find_sf_folders (Experiment 1 power_metrics_aggregator.py lines
    617-630): glob on a non-existent base path returns no matches and raises
    nothing. -/
def find_sf_folders (fs : FS) (base : String) : List String :=
  fs.sfDirs base

/-- Model of main of Experiment 1 power_metrics_aggregator.py (lines
    707-748): no existence check is made on the base path; when glob finds no
    SF* directories the script prints a message and returns, so the process
    exits with status 0.  The result is (exit status, printed lines); the
    processing output of the non-empty branch is abbreviated to its first
    line. -/
def power_metrics_main (sfFolders : List String) : Nat × List String :=
  if sfFolders = [] then (0, ["No SF* directories found in the base path."])
  else (0, ["Found " ++ toString sfFolders.length ++ " SF* directories:"])

/-- Model of the entry guard of average_execution_time_analyzer.py
    (Experiment 1, lines 134-143): a missing base path prints an error line
    and exits with status 1, otherwise main runs and the process exits with
    status 0.  The interpolated path is elided from the message. -/
def average_execution_time_cli (pathEx : Bool) : Nat × List String :=
  if pathEx then (0, []) else (1, ["Error: The base path does not exist."])

/-- Model of the entry block of energy_metrics_analyzer.py (Experiment 1,
    lines 66-74): os.listdir is called on the base path with no existence
    check and no handler, so a missing path terminates the process with an
    uncaught FileNotFoundError (non-zero exit via traceback), while an
    existing path lets the block run to completion with exit status 0. -/
def energy_metrics_cli (fs : FS) (base : String) : Except String Nat :=
  if fs.pathExists base then Except.ok 0 else Except.error ("FileNotFoundError")

/-! ## Concrete fixtures used by witnesses and counterexamples -/

/-- The 84-dash separator line: strip-equal and startswith both hold. -/
def sepL : PLine := ⟨true, true, false, false, false, false, false, none, none, none, none⟩

/-- A PowerDetail array marker line. -/
def pdL : PLine := ⟨false, false, false, false, false, false, true, none, none, none, none⟩

/-- A lone open-brace line. -/
def openL : PLine := ⟨false, false, true, false, true, false, false, none, none, none, none⟩

/-- A lone close-brace (with comma) line. -/
def closeL : PLine := ⟨false, false, false, true, false, true, false, none, none, none, none⟩

def timeL (ts : String) : PLine :=
  ⟨false, false, false, false, false, false, false, some ts, none, none, none⟩

def cpuL (n : Nat) : PLine :=
  ⟨false, false, false, false, false, false, false, none, some n, none, none⟩

def dimmL (n : Nat) : PLine :=
  ⟨false, false, false, false, false, false, false, none, none, some n, none⟩

def avgL (n : Nat) : PLine :=
  ⟨false, false, false, false, false, false, false, none, none, none, some n⟩

/-- One complete power entry as it appears in an ilo power file. -/
def entryBlock (ts : String) (c d a : Nat) : List PLine :=
  [openL, timeL ts, cpuL c, dimmL d, avgL a, closeL]

/-- A power-log body with exactly 3 separator lines and one complete entry in
    each of the resulting 4 sections. -/
def body4 : List PLine :=
  entryBlock ("2024-01-01T00:00:30Z") 1 2 3 ++ [sepL] ++
  entryBlock ("2024-01-01T00:01:00Z") 4 5 6 ++ [sepL] ++
  entryBlock ("2024-01-01T00:01:30Z") 7 8 9 ++ [sepL] ++
  entryBlock ("2024-01-01T00:01:45Z") 10 11 12

/-- An idle power entry block (the idle readers do not use the Time field). -/
def idleBlock (c d a : Nat) : List PLine :=
  [openL, cpuL c, dimmL d, avgL a, closeL]

/-- An idle power file containing exactly 5 complete entries and nothing
    else. -/
def idle5 : List PLine :=
  idleBlock 11 21 31 ++ idleBlock 12 22 32 ++ idleBlock 13 23 33 ++
  idleBlock 14 24 34 ++ idleBlock 15 25 35

/-- A window end bound far beyond every 4-digit-year timestamp. -/
def bigT : Nat := 100000000000000

/-- A directory tree in which no path exists. -/
def noFS : FS := ⟨fun _ => false, fun _ => [], fun _ _ => rfl⟩

/-- A directory tree with a single existing base path holding no SF*
    directories. -/
def oneFS : FS := ⟨fun p => p == "base", fun _ => [], fun _ _ => rfl⟩

/-! ## Helper lemmas: the Experiment 2/3 scan -/

lemma windowSpec_nil (s en : Nat) : windowSpec s en [] = Sec.empty := rfl

lemma flushE_windowSpec (s en : Nat) (e : Entry) (es : List Entry) :
    flushE s en e (windowSpec s en es) = windowSpec s en (es ++ [e]) := by
  obtain ⟨ht, hc, hd, ha⟩ := e
  cases ht with
  | none => simp [flushE, windowSpec, keepVal, List.filterMap_append, List.filterMap]
  | some ts =>
    cases hp : parseTime ts with
    | none => simp [flushE, windowSpec, keepVal, hp, List.filterMap_append, List.filterMap]
    | some t =>
      by_cases hw : s ≤ t ∧ t ≤ en
      · cases hc <;> cases hd <;> cases ha <;>
          simp [flushE, windowSpec, keepVal, hp, hw, List.filterMap_append, List.filterMap]
      · simp [flushE, windowSpec, keepVal, hp, hw, List.filterMap_append, List.filterMap]

lemma loadGo_windowSpec (s en : Nat) :
    ∀ (ls : List PLine) (inPD : Bool) (e : Entry) (es : List Entry),
      loadGo s en ls inPD e (windowSpec s en es)
        = (entriesGo ls inPD e es).map (windowSpec s en) := by
  intro ls
  induction ls with
  | nil => intro inPD e es; simp [loadGo, entriesGo]
  | cons l ls ih =>
    intro inPD e es
    simp only [loadGo, entriesGo]
    split_ifs with h1 h2 h3 h4 h5
    · exact ih true e es
    · simp only [List.map_cons]
      rw [show Sec.empty = windowSpec s en [] from rfl, ih]
    · exact ih inPD Entry.empty es
    · rw [flushE_windowSpec]
      exact ih inPD Entry.empty (es ++ [e])
    · exact ih inPD (e.update l) es
    · exact ih inPD e es

lemma entriesGo_ne_nil :
    ∀ (ls : List PLine) (inPD : Bool) (e : Entry) (cur : List Entry),
      entriesGo ls inPD e cur ≠ [] := by
  intro ls
  induction ls with
  | nil => intro inPD e cur; simp [entriesGo]
  | cons l ls ih =>
    intro inPD e cur
    simp only [entriesGo]
    split_ifs <;> first
      | exact List.cons_ne_nil _ _
      | apply ih

lemma loadGo_noPD (s en : Nat) :
    ∀ (ls : List PLine) (e : Entry) (cur : Sec),
      (∀ l ∈ ls, l.hasPD = false) → loadGo s en ls false e cur = [cur] := by
  intro ls
  induction ls with
  | nil => intro e cur _; simp [loadGo]
  | cons l ls ih =>
    intro e cur h
    have h1 : l.hasPD = false := h l (List.mem_cons_self l ls)
    simp only [loadGo, h1]
    simp only [Bool.false_eq_true, if_false, and_false, ite_false]
    exact ih e cur (fun x hx => h x (List.mem_cons_of_mem l hx))

lemma splitOnSep_ne_nil : ∀ ls : List PLine, splitOnSep ls ≠ [] := by
  intro ls
  cases ls with
  | nil => simp [splitOnSep]
  | cons l ls =>
    simp only [splitOnSep]
    split_ifs
    · exact List.cons_ne_nil _ _
    · cases hs : splitOnSep ls <;> exact List.cons_ne_nil _ _

lemma splitOnSep_length :
    ∀ ls : List PLine,
      (splitOnSep ls).length = ls.countP (fun l => l.startSep) + 1 := by
  intro ls
  induction ls with
  | nil => simp [splitOnSep]
  | cons l ls ih =>
    simp only [splitOnSep, List.countP_cons]
    split_ifs with h
    · simp [h, ih]
    · have h2 : (fun l : PLine => l.startSep) l = false := by
        simp only [Bool.not_eq_true] at h
        exact h
      cases hs : splitOnSep ls with
      | nil => exact absurd hs (splitOnSep_ne_nil ls)
      | cons seg segs =>
        rw [hs] at ih
        simp [h2, ← ih]

lemma entriesSections_length :
    ∀ (segs : List (List PLine)) (e : Entry),
      (entriesSections e segs).length = segs.length := by
  intro segs
  induction segs with
  | nil => intro e; simp [entriesSections]
  | cons seg segs ih =>
    intro e
    rcases hseg : entriesSeg e seg with ⟨fl, e2⟩
    simp [entriesSections, hseg, ih]

lemma consInto_of_ne_nil (cur : List Entry) :
    ∀ xs : List (List Entry), xs ≠ [] →
      ∃ h t, xs = h :: t ∧ consInto cur xs = (cur ++ h) :: t := by
  intro xs hne
  cases xs with
  | nil => exact absurd rfl hne
  | cons h t => exact ⟨h, t, rfl, rfl⟩

lemma consInto_nil_left : ∀ xs : List (List Entry), xs ≠ [] → consInto [] xs = xs := by
  intro xs hne
  cases xs with
  | nil => exact absurd rfl hne
  | cons h t => simp [consInto]

lemma entriesGo_split :
    ∀ (ls : List PLine) (e : Entry) (cur : List Entry),
      (∀ l ∈ ls, l.hasPD = false) →
      entriesGo ls true e cur = consInto cur (entriesSections e (splitOnSep ls)) := by
  intro ls
  induction ls with
  | nil =>
    intro e cur _
    simp [entriesGo, splitOnSep, entriesSections, entriesSeg, consInto]
  | cons l ls ih =>
    intro e cur h
    have h1 : l.hasPD = false := h l (List.mem_cons_self l ls)
    have hrest : ∀ x ∈ ls, x.hasPD = false := fun x hx => h x (List.mem_cons_of_mem l hx)
    have hX : entriesSections e (splitOnSep ls) ≠ [] := by
      intro hc
      have hlen := entriesSections_length (splitOnSep ls) e
      rw [hc] at hlen
      exact (splitOnSep_ne_nil ls) (List.length_eq_zero.mp hlen.symm)
    simp only [entriesGo, h1, Bool.false_eq_true, if_false]
    by_cases h2 : l.startSep = true
    · simp only [h2, if_true, true_and, if_pos trivial]
      rw [ih e [] hrest, consInto_nil_left _ (by
        intro hc
        have hlen := entriesSections_length (splitOnSep ls) e
        rw [hc] at hlen
        exact (splitOnSep_ne_nil ls) (List.length_eq_zero.mp hlen.symm))]
      simp [splitOnSep, h2, entriesSections, entriesSeg, consInto]
    · have h2f : l.startSep = false := by
        cases hb : l.startSep
        · rfl
        · exact absurd hb h2
      rcases hs : splitOnSep ls with _ | ⟨seg, segs⟩
      · exact absurd hs (splitOnSep_ne_nil ls)
      have hsplit : splitOnSep (l :: ls) = (l :: seg) :: segs := by
        simp [splitOnSep, h2f, hs]
      rw [hsplit]
      simp only [h2f, Bool.false_eq_true, false_and, if_false]
      by_cases h3 : l.stripOpen = true
      · simp only [h3, if_true, if_pos trivial]
        rw [ih Entry.empty cur hrest, hs]
        rcases hseg : entriesSeg Entry.empty seg with ⟨fl, e2⟩
        simp [entriesSections, entriesSeg, h3, hseg]
      · have h3f : l.stripOpen = false := by
          cases hb : l.stripOpen
          · rfl
          · exact absurd hb h3
        by_cases h4 : l.stripClose = true
        · simp only [h3f, h4, Bool.false_eq_true, if_false, if_true, if_pos trivial]
          rw [ih Entry.empty (cur ++ [e]) hrest, hs]
          rcases hseg : entriesSeg Entry.empty seg with ⟨fl, e2⟩
          simp [entriesSections, entriesSeg, h3f, h4, hseg, consInto]
        · have h4f : l.stripClose = false := by
            cases hb : l.stripClose
            · rfl
            · exact absurd hb h4
          simp only [h3f, h4f, Bool.false_eq_true, if_false, if_pos trivial]
          rw [ih (e.update l) cur hrest, hs]
          rcases hseg : entriesSeg (e.update l) seg with ⟨fl, e2⟩
          simp [entriesSections, entriesSeg, h3f, h4f, hseg]

/-! ## Helper lemmas: the Experiment 1 scan -/

lemma flush1_windowSpec1 (s en : Nat) (e : Entry) (es : List Entry) :
    flush1 s en e (windowSpec1 s en es) = windowSpec1 s en (es ++ [e]) := by
  obtain ⟨ht, hc, hd, ha⟩ := e
  cases ht with
  | none =>
    simp [flush1, windowSpec1, keepTs, keepW, List.filterMap_append, List.filterMap]
  | some ts =>
    cases hp : parseTime ts with
    | none =>
      simp [flush1, windowSpec1, keepTs, keepW, hp, List.filterMap_append, List.filterMap]
    | some t =>
      by_cases hw : s ≤ t ∧ t ≤ en
      · cases hc <;> cases hd <;> cases ha <;>
          simp [flush1, windowSpec1, keepTs, keepW, hp, hw, Option.toList,
            List.filterMap_append, List.filterMap]
      · simp [flush1, windowSpec1, keepTs, keepW, hp, hw,
          List.filterMap_append, List.filterMap]

lemma entriesGo1_ne_nil :
    ∀ (ls : List PLine) (inside : Bool) (e : Entry) (cur : List Entry),
      entriesGo1 ls inside e cur ≠ [] := by
  intro ls
  induction ls with
  | nil => intro inside e cur; simp [entriesGo1]
  | cons l ls ih =>
    intro inside e cur
    simp only [entriesGo1]
    split_ifs <;> first
      | exact List.cons_ne_nil _ _
      | apply ih

lemma dropLastIfEmpty_cons (x : Sec1) (xs : List Sec1) (h : xs ≠ []) :
    dropLastIfEmpty (x :: xs) = x :: dropLastIfEmpty xs := by
  cases xs with
  | nil => exact absurd rfl h
  | cons y ys => rfl

lemma go1_windowSpec1 (s en : Nat) :
    ∀ (ls : List PLine) (inside : Bool) (e : Entry) (es : List Entry),
      go1 s en ls inside e (windowSpec1 s en es)
        = dropLastIfEmpty ((entriesGo1 ls inside e es).map (windowSpec1 s en)) := by
  intro ls
  induction ls with
  | nil =>
    intro inside e es
    simp [go1, entriesGo1, dropLastIfEmpty]
  | cons l ls ih =>
    intro inside e es
    simp only [go1, entriesGo1]
    split_ifs with h1 h2 h3 h4
    · have hne : (entriesGo1 ls inside e []).map (windowSpec1 s en) ≠ [] := by
        intro hc
        exact entriesGo1_ne_nil ls inside e [] (List.map_eq_nil_iff.mp hc)
      rw [List.map_cons, dropLastIfEmpty_cons _ _ hne,
        show Sec1.empty = windowSpec1 s en [] from rfl, ih]
    · exact ih true Entry.empty es
    · rw [flush1_windowSpec1]
      exact ih false e (es ++ [e])
    · exact ih inside (e.update l) es
    · exact ih inside e es

lemma go1_entry_irrel (s en : Nat) :
    ∀ (ls : List PLine) (e e2 : Entry) (cur : Sec1),
      go1 s en ls false e cur = go1 s en ls false e2 cur := by
  intro ls
  induction ls with
  | nil => intro e e2 cur; rfl
  | cons l ls ih =>
    intro e e2 cur
    simp only [go1]
    split_ifs with h1 h2 h3 h4
    · exact congrArg (fun t => cur :: t) (ih e e2 Sec1.empty)
    · rfl
    · exact absurd h3.2 (by simp)
    · exact absurd h4 (by simp)
    · exact ih e e2 cur

lemma go1_fields (s en : Nat) :
    ∀ (fields rest : List PLine) (e : Entry) (cur : Sec1),
      (∀ l ∈ fields, l.stripSep = false ∧ l.hasOpen = false ∧ l.hasClose = false) →
      go1 s en (fields ++ rest) true e cur
        = go1 s en rest true (fields.foldl Entry.update e) cur := by
  intro fields
  induction fields with
  | nil => intro rest e cur _; simp
  | cons l fs ih =>
    intro rest e cur h
    obtain ⟨hs, ho, hc⟩ := h l (List.mem_cons_self l fs)
    simp only [List.cons_append, go1, hs, ho, hc, Bool.false_eq_true, if_false,
      false_and, if_pos trivial, List.foldl_cons]
    exact ih rest (e.update l) cur (fun x hx => h x (List.mem_cons_of_mem l hx))

lemma foldl_update_time :
    ∀ (fields : List PLine) (e : Entry),
      (∀ l ∈ fields, l.timeM = none) →
      (fields.foldl Entry.update e).time = e.time := by
  intro fields
  induction fields with
  | nil => intro e _; rfl
  | cons l fs ih =>
    intro e h
    have h1 : l.timeM = none := h l (List.mem_cons_self l fs)
    rw [List.foldl_cons, ih _ (fun x hx => h x (List.mem_cons_of_mem l hx))]
    simp [Entry.update, h1, setIf]

lemma go1_length_le (s en : Nat) :
    ∀ (ls : List PLine) (inside : Bool) (e : Entry) (cur : Sec1),
      (go1 s en ls inside e cur).length ≤ ls.countP (fun l => l.stripSep) + 1 := by
  intro ls
  induction ls with
  | nil =>
    intro inside e cur
    simp only [go1, List.countP_nil]
    split_ifs <;> simp
  | cons l ls ih =>
    intro inside e cur
    simp only [go1]
    split_ifs with h1 h2 h3 h4
    · have hc : List.countP (fun x : PLine => x.stripSep) (l :: ls)
          = List.countP (fun x : PLine => x.stripSep) ls + 1 := by
        simp [List.countP_cons, h1]
      rw [hc]
      have hih := ih inside e Sec1.empty
      simp only [List.length_cons]
      omega
    all_goals
      have h1f : l.stripSep = false := by
        cases hb : l.stripSep
        · rfl
        · exact absurd hb h1
    all_goals
      have hc : List.countP (fun x : PLine => x.stripSep) (l :: ls)
          = List.countP (fun x : PLine => x.stripSep) ls := by
        simp [List.countP_cons, h1f]
    · rw [hc]
      exact ih true Entry.empty cur
    · rw [hc]
      exact ih false e (flush1 s en e cur)
    · rw [hc]
      exact ih inside (e.update l) cur
    · rw [hc]
      exact ih inside e cur

/-! ## Claim theorems -/

/-- Claim C1: for every power-log input and every supplied time window, the
    section-windowed sample extractor keeps exactly the complete entries
    whose timestamp t satisfies start ≤ t ≤ end (boundaries inclusive) and
    drops all entries outside the window, and each output section is the
    order-preserving subsequence of the in-window entries of that section.
    First conjunct: the Experiment 2/3 extractor equals, per section, the
    windowed filtering of the section's flushed entries.  Second conjunct:
    the same characterization for the Experiment 1 parse loop (whose
    fixed-count padding afterwards is the subject of claim C3). -/
theorem c1_window_filter (s en : Nat) (lines : List PLine) :
    load_power_data_in_time_range s en lines
      = (sectionEntriesSpec lines).map (windowSpec s en)
    ∧ extract_sections_raw s en lines
      = dropLastIfEmpty ((sectionEntriesSpec1 lines).map (windowSpec1 s en)) := by
  constructor
  · have h := loadGo_windowSpec s en lines false Entry.empty []
    rw [windowSpec_nil] at h
    exact h
  · have h := go1_windowSpec1 s en lines false Entry.empty []
    rw [show windowSpec1 s en [] = Sec1.empty from rfl] at h
    exact h

/-- Claim C3: for every input, the Experiment 1 extractor pads with empty
    sections when it produces fewer real sections than the expected fixed
    count and truncates when it produces more, so the returned section list
    always has exactly TOTAL_SECTIONS sections. -/
theorem c3_fixed_section_count (s en : Nat) (lines : List PLine) :
    (extract_section_values s en lines).length = TOTAL_SECTIONS := by
  unfold extract_section_values padTruncate
  split_ifs with h
  · simp only [List.length_take]
    omega
  · simp only [List.length_append, List.length_replicate]
    unfold TOTAL_SECTIONS at h ⊢
    omega

/-- Claim C10: in the Experiment 2/3 extractors no separator line and no
    entry line is processed before a PowerDetail marker line has been seen,
    so an input without any marker line yields exactly one empty section
    (per metric key) no matter how many separators or entries it contains. -/
theorem c10_power_detail_gating (s en : Nat) (lines : List PLine)
    (h : ∀ l ∈ lines, l.hasPD = false) :
    load_power_data_in_time_range s en lines = [Sec.empty] :=
  loadGo_noPD s en lines Entry.empty Sec.empty h

/-- Witness for claim C10: a file with a separator line and a complete entry
    but no PowerDetail marker still yields the single empty section. -/
theorem c10_witness :
    (∀ l ∈ [sepL, openL, timeL ("2024-01-01T00:00:30Z"), cpuL 3, closeL],
      l.hasPD = false)
    ∧ load_power_data_in_time_range 0 bigT
        [sepL, openL, timeL ("2024-01-01T00:00:30Z"), cpuL 3, closeL] = [Sec.empty] :=
  ⟨by decide, c10_power_detail_gating 0 bigT _ (by decide)⟩

/-- Claim C8: in the Experiment 1 parse loop an entry whose required key
    (the Time field, the one key whose absence suppresses the flush) has not
    been captured when its close marker is seen is discarded in its
    entirety: the run is identical to a run in which the entry block never
    occurred, with every section's output lists untouched, and the loop
    continues normally to end of file (the model is a total function, so no
    error state exists).  The final conjunct states the same discard for the
    Experiment 2/3 flush. -/
theorem c8_entry_without_time_discarded (s en : Nat)
    (post fields : List PLine) (inside0 : Bool) (e0 : Entry) (cur0 : Sec1)
    (oL cL : PLine)
    (hoS : oL.stripSep = false) (hoO : oL.hasOpen = true)
    (hcS : cL.stripSep = false) (hcO : cL.hasOpen = false) (hcC : cL.hasClose = true)
    (hf : ∀ l ∈ fields,
      l.stripSep = false ∧ l.hasOpen = false ∧ l.hasClose = false ∧ l.timeM = none) :
    go1 s en (oL :: (fields ++ (cL :: post))) inside0 e0 cur0
      = go1 s en post false e0 cur0
    ∧ (∀ (c d a : Option Nat) (cur : Sec), flushE s en ⟨none, c, d, a⟩ cur = cur) := by
  constructor
  · have hstep : go1 s en (oL :: (fields ++ (cL :: post))) inside0 e0 cur0
        = go1 s en (fields ++ (cL :: post)) true Entry.empty cur0 := by
      simp [go1, hoS, hoO]
    rw [hstep, go1_fields s en fields (cL :: post) Entry.empty cur0
      (fun l hl => ⟨(hf l hl).1, (hf l hl).2.1, (hf l hl).2.2.1⟩)]
    have htime : (fields.foldl Entry.update Entry.empty).time = none :=
      foldl_update_time fields Entry.empty (fun l hl => (hf l hl).2.2.2)
    have hclose : go1 s en (cL :: post) true (fields.foldl Entry.update Entry.empty) cur0
        = go1 s en post false (fields.foldl Entry.update Entry.empty)
            (flush1 s en (fields.foldl Entry.update Entry.empty) cur0) := by
      simp [go1, hcS, hcO, hcC]
    have hflush : flush1 s en (fields.foldl Entry.update Entry.empty) cur0 = cur0 := by
      simp [flush1, htime]
    rw [hclose, hflush]
    exact go1_entry_irrel s en post _ e0 cur0
  · intro c d a cur
    rfl

/-- Witness for claim C8: a concrete entry block carrying CpuWatts and
    DimmWatts but no Time field contributes nothing and the scan proceeds as
    if it were absent. -/
theorem c8_witness :
    (openL.stripSep = false ∧ openL.hasOpen = true ∧ closeL.stripSep = false
      ∧ closeL.hasOpen = false ∧ closeL.hasClose = true
      ∧ (∀ l ∈ [cpuL 5, dimmL 6],
          l.stripSep = false ∧ l.hasOpen = false ∧ l.hasClose = false ∧ l.timeM = none))
    ∧ (go1 0 bigT (openL :: ([cpuL 5, dimmL 6] ++ (closeL :: [sepL]))) false
          Entry.empty Sec1.empty
        = go1 0 bigT [sepL] false Entry.empty Sec1.empty
      ∧ (∀ (c d a : Option Nat) (cur : Sec), flushE 0 bigT ⟨none, c, d, a⟩ cur = cur)) :=
  ⟨⟨rfl, rfl, rfl, rfl, rfl, by decide⟩,
   c8_entry_without_time_discarded 0 bigT [sepL] [cpuL 5, dimmL 6] false
     Entry.empty Sec1.empty openL closeL rfl rfl rfl rfl rfl (by decide)⟩

/-- Counterexample to claim C2 as stated: on a power-log input with exactly
    3 separator lines and one complete in-window entry in each of the 4
    resulting sections, the Experiment 1 extractor (cited by the claim)
    returns 8 sections, not exactly 4, because it pads its section list to
    its fixed count TOTAL_SECTIONS = 8. -/
theorem c2_counterexample :
    body4.countP (fun l => l.stripSep) = 3
    ∧ (extract_section_values 0 bigT body4).length = 8 := by
  constructor
  · decide
  · decide

/-- Claim C2 as amended: for a power-log input with exactly 3 separator
    lines, the Experiment 2/3 extractor (after its PowerDetail marker)
    returns exactly 4 sections with every entry assigned to the section
    given by the number of separator lines preceding it in the file
    (conjuncts 1-2: the output is the windowed image of the
    separator-split segment entries); the Experiment 1 extractor returns
    those real sections (at most 4 of them) padded with empty sections to
    its fixed count of 8 (conjuncts 3-5). -/
theorem c2_amended (s en : Nat) (m : PLine) (rest : List PLine)
    (s1 en1 : Nat) (lines1 : List PLine)
    (hm : m.hasPD = true)
    (hrest : ∀ l ∈ rest, l.hasPD = false)
    (hsep : rest.countP (fun l => l.startSep) = 3)
    (hsep1 : lines1.countP (fun l => l.stripSep) = 3) :
    load_power_data_in_time_range s en (m :: rest)
        = (entriesSections Entry.empty (splitOnSep rest)).map (windowSpec s en)
    ∧ (load_power_data_in_time_range s en (m :: rest)).length = 4
    ∧ (extract_section_values s1 en1 lines1).length = 8
    ∧ (extract_sections_raw s1 en1 lines1).length ≤ 4
    ∧ extract_section_values s1 en1 lines1
        = extract_sections_raw s1 en1 lines1
          ++ List.replicate (8 - (extract_sections_raw s1 en1 lines1).length) Sec1.empty := by
  have hX : entriesSections Entry.empty (splitOnSep rest) ≠ [] := by
    intro hc
    have hlen := entriesSections_length (splitOnSep rest) Entry.empty
    rw [hc] at hlen
    exact (splitOnSep_ne_nil rest) (List.length_eq_zero.mp hlen.symm)
  have h1 : load_power_data_in_time_range s en (m :: rest)
      = (entriesGo rest true Entry.empty []).map (windowSpec s en) := by
    unfold load_power_data_in_time_range
    simp only [loadGo, hm, if_true]
    rw [show Sec.empty = windowSpec s en [] from rfl]
    exact loadGo_windowSpec s en rest true Entry.empty []
  rw [entriesGo_split rest Entry.empty [] hrest, consInto_nil_left _ hX] at h1
  have hlen4 : (load_power_data_in_time_range s en (m :: rest)).length = 4 := by
    rw [h1, List.length_map, entriesSections_length, splitOnSep_length, hsep]
  have hraw : (extract_sections_raw s1 en1 lines1).length ≤ 4 := by
    have h := go1_length_le s1 en1 lines1 false Entry.empty Sec1.empty
    rw [hsep1] at h
    exact h
  have hpad : extract_section_values s1 en1 lines1
      = extract_sections_raw s1 en1 lines1
        ++ List.replicate (8 - (extract_sections_raw s1 en1 lines1).length) Sec1.empty := by
    unfold extract_section_values padTruncate TOTAL_SECTIONS
    rw [if_neg (by omega)]
  refine ⟨h1, hlen4, ?_, hraw, hpad⟩
  rw [hpad]
  simp only [List.length_append, List.length_replicate]
  omega

/-- Witness for the amended claim C2, on the fixture with 3 separators and
    one complete entry per section. -/
theorem c2_witness :
    (pdL.hasPD = true
      ∧ (∀ l ∈ body4, l.hasPD = false)
      ∧ body4.countP (fun l => l.startSep) = 3
      ∧ body4.countP (fun l => l.stripSep) = 3)
    ∧ (load_power_data_in_time_range 0 bigT (pdL :: body4)
          = (entriesSections Entry.empty (splitOnSep body4)).map (windowSpec 0 bigT)
      ∧ (load_power_data_in_time_range 0 bigT (pdL :: body4)).length = 4
      ∧ (extract_section_values 0 bigT body4).length = 8
      ∧ (extract_sections_raw 0 bigT body4).length ≤ 4
      ∧ extract_section_values 0 bigT body4
          = extract_sections_raw 0 bigT body4
            ++ List.replicate (8 - (extract_sections_raw 0 bigT body4).length) Sec1.empty) :=
  ⟨⟨rfl, by decide, by decide, by decide⟩,
   c2_amended 0 bigT pdL body4 0 bigT body4 rfl (by decide) (by decide) (by decide)⟩

/-- Claim C4: for every sequence of at least 2 numeric samples the
    statistics aggregator returns mean = sum/count, the Bessel-corrected
    sample standard deviation sqrt(sum of (x-mean)^2 / (count-1)), and
    std_error = sample_stddev / sqrt(count); moreover the Experiment 2
    helpers satisfy the same formulas and std_error is sample_stddev divided
    by sqrt(count). -/
theorem c4_stats_formulas (sqrtF : ℚ → ℚ) (data : List ℚ) (h : 2 ≤ data.length) :
    calc_stats sqrtF data
        = (some (data.sum / (data.length : ℚ)),
           some (sqrtF ((data.map (fun x => (x - data.sum / (data.length : ℚ)) ^ 2)).sum
              / ((data.length : ℚ) - 1))),
           some (sqrtF ((data.map (fun x => (x - data.sum / (data.length : ℚ)) ^ 2)).sum
              / ((data.length : ℚ) - 1)) / sqrtF (data.length : ℚ)))
    ∧ calculate_sample_std sqrtF data
        = some (sqrtF ((data.map (fun x => (x - data.sum / (data.length : ℚ)) ^ 2)).sum
            / ((data.length : ℚ) - 1)))
    ∧ calculate_std_error sqrtF data
        = (calculate_sample_std sqrtF data).map (fun sd => sd / sqrtF (data.length : ℚ)) := by
  have hne : data ≠ [] := by
    intro hc
    rw [hc] at h
    simp at h
  have h1 : 1 < data.length := h
  refine ⟨?_, ?_, ?_⟩
  · simp [calc_stats, hne, h1]
  · simp [calculate_sample_std, sampleStd, h1]
  · simp [calculate_std_error, h1]

/-- Witness for claim C4 at the sample list [1, 3] with the square root
    abstracted as the identity: mean 2, variance 2, std error 2 / 2 = 1. -/
theorem c4_witness :
    2 ≤ ([(1 : ℚ), 3] : List ℚ).length
    ∧ calc_stats id [(1 : ℚ), 3] = (some 2, some 2, some 1) := by
  refine ⟨by norm_num, ?_⟩
  have h := (c4_stats_formulas id [(1 : ℚ), 3] (by norm_num)).1
  rw [h]
  norm_num

/-- Counterexample to claim C5 as stated: the Experiment 3 per-query
    aggregation, cited by the claim, substitutes the number 0 (not the
    undefined null sentinel) for stddev and std_error on a 1-element sample
    sequence. -/
theorem c5_counterexample : exp3_section_stats id [(5 : ℚ)] = (5, 0, 0) := by
  norm_num [exp3_section_stats]

/-- Claim C5 as amended: on sample sequences with fewer than 2 elements no
    aggregator raises; Experiment 1's calc_stats and Experiment 2's helpers
    return the null sentinel (mean defined on a singleton, everything
    undefined on the empty sequence), while the Experiment 3 per-query
    aggregation substitutes 0 for the undefined statistics. -/
theorem c5_small_sample_sentinels (sqrtF : ℚ → ℚ) (x : ℚ) :
    calc_stats sqrtF [] = (none, none, none)
    ∧ calc_stats sqrtF [x] = (some x, none, none)
    ∧ calculate_sample_std sqrtF [] = none
    ∧ calculate_sample_std sqrtF [x] = none
    ∧ calculate_std_error sqrtF [] = none
    ∧ calculate_std_error sqrtF [x] = none
    ∧ exp3_section_stats sqrtF [] = (0, 0, 0)
    ∧ exp3_section_stats sqrtF [x] = (x, 0, 0) := by
  refine ⟨rfl, ?_, rfl, rfl, rfl, rfl, rfl, ?_⟩
  · simp [calc_stats]
  · simp [exp3_section_stats]

/-- Claim C6 evaluated at the failing input: an idle file holding exactly 5
    complete entries, queried for the last 20, yields only 4 values per
    field (the file's first entry is never flushed, because no close-marker
    line precedes it in file order), where the claim and the spec require
    exactly 5. -/
theorem c6_idle_reader_drops_first_entry :
    get_last_X_idle_values 20 idle5
      = ⟨[12, 13, 14, 15], [22, 23, 24, 25], [32, 33, 34, 35]⟩ := by
  decide

/-- Counterexample to claim C7 as stated: the Experiment 3 timestamp loader,
    cited by the claim, opens the file with no exception handling, so on a
    missing file a FileNotFoundError escapes to the caller instead of an
    empty mapping being returned. -/
theorem c7_counterexample :
    load_query_timestamps none = Except.error ("FileNotFoundError") := rfl

/-- Claim C7 as amended: on a missing timestamp file Experiment 1's
    read_timestamps catches the error, logs it and returns the all-None
    result with no exception escaping, while Experiment 3's
    load_query_timestamps lets the FileNotFoundError propagate (its caller
    avoids this by an existence check before the call). -/
theorem c7_missing_file_behaviour :
    read_timestamps none = (none, none, none)
    ∧ load_query_timestamps none = Except.error ("FileNotFoundError") :=
  ⟨rfl, rfl⟩

/-- Counterexample to claim C9 as stated: Experiment 1's
    power_metrics_aggregator performs no existence check on its base path;
    on a non-existent path glob finds no SF* directories, the script prints
    a message and returns, exiting with status 0 where the claim requires a
    non-zero exit. -/
theorem c9_counterexample :
    noFS.pathExists "/missing" = false
    ∧ power_metrics_main (find_sf_folders noFS "/missing")
        = (0, ["No SF* directories found in the base path."]) :=
  ⟨rfl, rfl⟩

/-- Claim C9 as amended: on a missing base path
    average_execution_time_analyzer prints an error and exits 1 and
    energy_metrics_analyzer terminates non-zero via an uncaught
    FileNotFoundError, but power_metrics_aggregator prints a diagnostic and
    exits 0; on an existing base path the guarded scripts run and exit 0. -/
theorem c9_amended (fs : FS) (p q : String)
    (hp : fs.pathExists p = false) (hq : fs.pathExists q = true) :
    average_execution_time_cli (fs.pathExists p)
        = (1, ["Error: The base path does not exist."])
    ∧ energy_metrics_cli fs p = Except.error ("FileNotFoundError")
    ∧ power_metrics_main (find_sf_folders fs p)
        = (0, ["No SF* directories found in the base path."])
    ∧ average_execution_time_cli (fs.pathExists q) = (0, [])
    ∧ energy_metrics_cli fs q = Except.ok 0 := by
  refine ⟨?_, ?_, ?_, ?_, ?_⟩
  · rw [hp]
    rfl
  · simp [energy_metrics_cli, hp]
  · rw [find_sf_folders, fs.sfDirs_missing p hp]
    rfl
  · rw [hq]
    rfl
  · simp [energy_metrics_cli, hq]

/-- Witness for the amended claim C9 on a concrete directory tree with one
    existing base path and one missing path. -/
theorem c9_witness :
    oneFS.pathExists "/missing" = false
    ∧ oneFS.pathExists "base" = true
    ∧ (average_execution_time_cli (oneFS.pathExists "/missing")
          = (1, ["Error: The base path does not exist."])
      ∧ energy_metrics_cli oneFS "/missing" = Except.error ("FileNotFoundError")
      ∧ power_metrics_main (find_sf_folders oneFS "/missing")
          = (0, ["No SF* directories found in the base path."])
      ∧ average_execution_time_cli (oneFS.pathExists "base") = (0, [])
      ∧ energy_metrics_cli oneFS "base" = Except.ok 0) :=
  ⟨by decide, by decide, c9_amended oneFS "/missing" "base" (by decide) (by decide)⟩

end Ade

